import Mathlib

/-!
Shallow embedding of the Pawtner Hope backend (Go, single-process in-memory
repository with HTTP handlers).  The definitions below are translated from
the Go source; state-mutating Go functions become explicit state-passing
functions, Go maps become association lists with Go zero-value defaults,
and time-based / random inputs (timestamps, OTP codes, token nonces) become
explicit oracle parameters.

The `pets` slice is preallocated with capacity 100 and `petsByID` stores Go
pointers `&pets[i]` into its backing array.  The model therefore carries
the backing array explicitly (`backing`; the live slice is its first
`petsLen` slots) and represents a stored pointer as the index of the slot
it references.  `DeletePet`'s `append(pets[:i], pets[i+1:]...)` shifts the
later elements left inside the same backing array, so stored pointers for
pets after the deleted index afterwards reference a different record, and
`append(pets, p)` writes the slot at the old length, so a pointer into a
previously vacated slot afterwards references the new record.  The model
reproduces both: a dereference reads whatever the indexed slot currently
holds, stale or not.
-/

namespace PawtnerHope

deriving instance DecidableEq for Except

/-! ### Association-list maps (Go map semantics: zero value on missing key) -/

def alookup {α : Type} : List (String × α) → String → Option α
  | [], _ => none
  | kv :: rest, k => if kv.1 = k then some kv.2 else alookup rest k

def aset {α : Type} : List (String × α) → String → α → List (String × α)
  | [], k, v => [(k, v)]
  | kv :: rest, k, v => if kv.1 = k then (k, v) :: rest else kv :: aset rest k v

def adel {α : Type} : List (String × α) → String → List (String × α)
  | [], _ => []
  | kv :: rest, k => if kv.1 = k then rest else kv :: adel rest k

/-- Go `map[string]int` read: zero value 0 on a missing key. -/
def mapGet (m : List (String × Int)) (k : String) : Int :=
  (alookup m k).getD 0

abbrev CountMap := List (String × Int)

/-- `statusCounts[k]++` in Go. -/
def incrCount (m : CountMap) (k : String) : CountMap :=
  aset m k (mapGet m k + 1)

/-- `statusCounts[k]--` in Go. -/
def decrCount (m : CountMap) (k : String) : CountMap :=
  aset m k (mapGet m k - 1)

/-- The sum over all buckets of a status-count index. -/
def sumCounts (m : CountMap) : Int :=
  (m.map Prod.snd).sum

/-- Go `map[string][]string` read: zero value (empty slice) on a missing key. -/
def sliceMapGet (m : List (String × List String)) (k : String) : List String :=
  (alookup m k).getD []

abbrev BreedMap := List (String × List String)

/-- `petsByBreed[breed] = append(petsByBreed[breed], id)` in Go. -/
def breedAppend (m : BreedMap) (breed id : String) : BreedMap :=
  aset m breed (sliceMapGet m breed ++ [id])

/-! ### Pet data model (struct `Pet` in the source) -/

structure Pet where
  ID : String
  Name : String
  Species : String
  Breed : String
  Age : Int
  Gender : String
  Description : String
  Status : String
  IsVaccinated : Bool
  CreatedAt : Int
  Tags : List String
  Attributes : List (String × String)
deriving DecidableEq

/-- The Go zero value of `Pet`, as produced by `var newPet Pet` /
`var update Pet` before JSON decoding fills in the submitted fields. -/
def emptyPet : Pet :=
  ⟨"", "", "", "", 0, "", "", "", false, 0, [], []⟩

inductive RepoErr where
  | petNotFound
deriving DecidableEq

/-- `fmt.Sprintf("%03d", n)`: zero-padded to at least three digits. -/
def pad3 (n : Nat) : String :=
  if n < 10 then "00" ++ toString n
  else if n < 100 then "0" ++ toString n
  else toString n

/-- `fmt.Sprintf("pet-%03d", n)`. -/
def petIDString (n : Nat) : String := "pet-" ++ pad3 n

/-- The repository state touched by the pet operations: the backing array
of the `pets` slice together with its live length (the visible slice is
`backing.take petsLen`), the `petsByID` index mapping an ID to the slot
index its stored `&pets[i]` pointer references, the status-count index and
the breed index. -/
structure RepoState where
  backing : List Pet
  petsLen : Nat
  petsByID : List (String × Nat)
  statusCounts : CountMap
  petsByBreed : BreedMap
deriving DecidableEq

/-- The visible `pets` slice: the live prefix of the backing array. -/
def livePets (s : RepoState) : List Pet :=
  s.backing.take s.petsLen

/-- The record a stored `&pets[i]` pointer currently references: whatever
the indexed backing-array slot holds now (possibly a record shifted there
by a later delete; the default is unreachable because the Go program only
stores pointers to written slots). -/
def derefSlot (backing : List Pet) (i : Nat) : Pet :=
  backing.getD i emptyPet

/-- The first-ID-match scan used by handlers and by `DeletePet`'s removal
loop (which breaks after the first match). -/
def findPet : List Pet → String → Option Pet
  | [], _ => none
  | p :: rest, id => if p.ID = id then some p else findPet rest id

/-- The result, on the live slice, of `pets = append(pets[:i],
pets[i+1:]...)` at the first index whose ID matches: that first matching
element is removed and the later ones shift down. -/
def removeFirstPet : List Pet → String → List Pet
  | [], _ => []
  | p :: rest, id => if p.ID = id then rest else p :: removeFirstPet rest id

/-- `pets = append(pets, p)` on the backing array: within capacity Go
writes the slot at the old length (overwriting any stale content left
there by earlier deletes); beyond it the array grows. -/
def appendPet (backing : List Pet) (len : Nat) (p : Pet) : List Pet :=
  if len < backing.length then backing.set len p else backing ++ [p]

/-- Field application of `UpdatePet`: each non-empty string field among
Name, Species, Breed, Status, Description and a positive Age overwrite the
stored record; all other fields of the stored record are left as they are.
(The source has no branches for Gender, IsVaccinated, Tags, Attributes or
CreatedAt.) -/
def applyUpdate (pet update : Pet) : Pet :=
  { pet with
    Name := if update.Name ≠ "" then update.Name else pet.Name,
    Species := if update.Species ≠ "" then update.Species else pet.Species,
    Breed := if update.Breed ≠ "" then update.Breed else pet.Breed,
    Age := if update.Age > 0 then update.Age else pet.Age,
    Status := if update.Status ≠ "" then update.Status else pet.Status,
    Description := if update.Description ≠ "" then update.Description else pet.Description }

/-- `UpdatePet` from the source: looks the id up in `petsByID` (absent ↦
`ErrPetNotFound`), dereferences the stored pointer — the indexed slot,
whatever record it currently holds — applies the partial update to that
record in place, and on a status write decrements that record's old bucket
and increments the new bucket of `statusCounts`; returns the written
record. -/
def UpdatePet (s : RepoState) (id : String) (update : Pet) :
    RepoState × Except RepoErr Pet :=
  match alookup s.petsByID id with
  | none => (s, Except.error RepoErr.petNotFound)
  | some i =>
      let pet := derefSlot s.backing i
      let newPet := applyUpdate pet update
      let counts :=
        if update.Status ≠ "" then
          incrCount (decrCount s.statusCounts pet.Status) update.Status
        else s.statusCounts
      ({ s with backing := s.backing.set i newPet, statusCounts := counts },
       Except.ok newPet)

/-- `DeletePet` from the source: absent id ↦ `ErrPetNotFound`; otherwise it
decrements the status bucket of the record the stored pointer currently
targets (which is a different pet's bucket when the pointer has gone stale
through an earlier mid-slice delete), deletes the `petsByID` key, and runs
the removal loop over the live slice: the first entry whose ID matches is
removed, the later entries shift down inside the backing array (the slot
at the old last index keeps its previous content), and the live length
drops by one; with no live match the slice stays as it is.  The breed
index is not touched by the source. -/
def DeletePet (s : RepoState) (id : String) : RepoState × Except RepoErr Unit :=
  match alookup s.petsByID id with
  | none => (s, Except.error RepoErr.petNotFound)
  | some i =>
      let pointee := derefSlot s.backing i
      let counts := decrCount s.statusCounts pointee.Status
      let keys := adel s.petsByID id
      let live := s.backing.take s.petsLen
      match findPet live id with
      | some _ =>
          ({ backing := removeFirstPet live id ++ s.backing.drop (s.petsLen - 1),
             petsLen := s.petsLen - 1,
             petsByID := keys,
             statusCounts := counts,
             petsByBreed := s.petsByBreed },
           Except.ok ())
      | none =>
          ({ s with petsByID := keys, statusCounts := counts },
           Except.ok ())

/-- `validatePet` from the source. -/
def validatePet (pet : Pet) : Bool × List String :=
  let errs := (if pet.Name = "" then ["Pet name is required"] else [])
    ++ (if pet.Species = "" then ["Species is required"] else [])
    ++ (if pet.Age < 0 ∨ pet.Age > 30 then ["Age must be between 0 and 30"] else [])
    ++ (if pet.Status = "Available" ∨ pet.Status = "Adopted" ∨ pet.Status = "Under Care"
        then [] else ["Invalid status"])
  (errs.length = 0, errs)

/-- The insertion core of `addPetHandler` (after validation): assigns
`fmt.Sprintf("pet-%03d", len(pets)+1)` and the creation time, appends to
`pets` (writing the backing slot at the old length), points
`petsByID[newPet.ID]` at that slot — overwriting the pointer stored under
an already-used ID, as a Go map assignment does — increments the status
bucket and appends to the breed index.  Returns the stored record. -/
def addPet (s : RepoState) (newPet : Pet) (now : Int) : RepoState × Pet :=
  let p := { newPet with ID := petIDString (s.petsLen + 1), CreatedAt := now }
  ({ backing := appendPet s.backing s.petsLen p,
     petsLen := s.petsLen + 1,
     petsByID := aset s.petsByID p.ID s.petsLen,
     statusCounts := incrCount s.statusCounts p.Status,
     petsByBreed := breedAppend s.petsByBreed p.Breed p.ID }, p)

/-- One repository call of the kind claim C1 quantifies over. -/
inductive RepoOp where
  | update (id : String) (u : Pet)
  | del (id : String)

def applyOp (s : RepoState) : RepoOp → RepoState
  | RepoOp.update id u => (UpdatePet s id u).1
  | RepoOp.del id => (DeletePet s id).1

def runOps (s : RepoState) (ops : List RepoOp) : RepoState :=
  ops.foldl applyOp s

/-- A consistent repository state, as maintained by the Go program: the
live length is within the backing array, the sum over all status buckets
equals the live pet count, the map has no duplicate keys, and every key of
`petsByID` has at least one live pet carrying that ID (every stored
pointer was installed together with such a pet, and deletion removes key
and first matching pet together). -/
def consistentRepo (s : RepoState) : Prop :=
  s.petsLen ≤ s.backing.length ∧
  sumCounts s.statusCounts = (s.petsLen : Int) ∧
  (s.petsByID.map Prod.fst).Nodup ∧
  ∀ kv ∈ s.petsByID, (findPet (livePets s) kv.1).isSome = true

instance (s : RepoState) : Decidable (consistentRepo s) := by
  unfold consistentRepo livePets; infer_instance

/-! ### Seed data (`initializeData` in the source; timestamps abstracted) -/

def maxPet : Pet :=
  ⟨"pet-001", "Max", "Dog", "Golden Retriever", 3, "Male",
   "Friendly and energetic dog looking for a loving home", "Available", true, 0,
   ["Friendly", "Energetic", "House-trained"],
   [("Color", "Golden"), ("Size", "Large"), ("Weight", "30kg")]⟩

def lunaPet : Pet :=
  ⟨"pet-002", "Luna", "Cat", "Persian", 2, "Female",
   "Calm and affectionate cat, perfect for apartments", "Available", true, 0,
   ["Calm", "Indoor", "Affectionate"],
   [("Color", "White"), ("Size", "Medium"), ("Weight", "4kg")]⟩

def charliePet : Pet :=
  ⟨"pet-003", "Charlie", "Dog", "Beagle", 1, "Male",
   "Playful puppy with lots of energy", "Under Care", false, 0,
   ["Playful", "Young", "Needs Training"],
   [("Color", "Brown and White"), ("Size", "Medium"), ("Weight", "12kg")]⟩

/-- The seeding loop of `initializeData`: `pets = append(pets, pet)` and
`petsByID[pet.ID] = &pets[i]`. -/
def insertSeed (s : RepoState) (p : Pet) : RepoState :=
  { backing := appendPet s.backing s.petsLen p,
    petsLen := s.petsLen + 1,
    petsByID := aset s.petsByID p.ID s.petsLen,
    statusCounts := incrCount s.statusCounts p.Status,
    petsByBreed := breedAppend s.petsByBreed p.Breed p.ID }

def emptyRepo : RepoState := ⟨[], 0, [], [], []⟩

def seedState : RepoState :=
  [maxPet, lunaPet, charliePet].foldl insertSeed emptyRepo

/-- A well-formed new pet submission (passes `validatePet`). -/
def rockyPet : Pet :=
  { emptyPet with
    Name := "Rocky", Species := "Dog", Breed := "Labrador", Age := 2,
    Gender := "Male", Status := "Available" }

/-! ### Donations and the payment pipeline -/

structure Donation where
  ID : String
  DonorName : String
  DonorEmail : String
  Amount : Rat
  PaymentMethod : String
  TransactionID : String
  Status : String
  CreatedAt : Int
  PaymentViaDeeplink : Bool
deriving DecidableEq

def emptyDonation : Donation :=
  ⟨"", "", "", 0, "", "", "", 0, false⟩

structure Receipt where
  ReceiptID : String
  DonationID : String
  DonorName : String
  Amount : Rat
  IssuedAt : Int
  Message : String
deriving DecidableEq

structure PaymentConfirmation where
  DonationID : String
  Success : Bool
  TransactionID : String
  ErrorMsg : String
deriving DecidableEq

inductive DonErr where
  | invalidPayment
  | missingDonorInfo
  | missingPaymentMethod
deriving DecidableEq

/-- `fmt.Sprintf("don-%03d", n)`. -/
def donIDString (n : Nat) : String := "don-" ++ pad3 n

/-- `fmt.Sprintf("txn-%d", now)` with the nanosecond timestamp as oracle. -/
def txnIDString (now : Int) : String := "txn-" ++ toString now

/-- Decimal rendering of the amount (`%.2f` in the source); the exact
digits are irrelevant to every claim. -/
def fmtAmount (a : Rat) : String := toString a

/-- `GenerateReceipt` from the source (`rcpt-%d` receipt id from the
nanosecond timestamp oracle). -/
def GenerateReceipt (donation : Donation) (now : Int) : Receipt :=
  ⟨"rcpt-" ++ toString now, donation.ID, donation.DonorName, donation.Amount, now,
   "Thank you " ++ donation.DonorName ++ " for your generous donation of " ++
     fmtAmount donation.Amount ++ " to Pawtner Hope Foundation!"⟩

/-- The record `ProcessDonation` writes before appending: the in-place
field assignments of the source (ID, transaction ID, status, creation
time).  The status written at creation is the literal "Completed". -/
def storedDonation (donations : List Donation) (d : Donation) (now : Int) : Donation :=
  { d with
    ID := donIDString (donations.length + 1),
    TransactionID := txnIDString now,
    Status := "Completed",
    CreatedAt := now }

/-- `ProcessDonation` from the source: validates amount, donor fields and
payment method, then fills in ID, transaction ID, status and creation time
on the record itself, appends it to `donations` and returns a receipt. -/
def ProcessDonation (donations : List Donation) (d : Donation) (now : Int) :
    List Donation × Except DonErr (Donation × Receipt) :=
  if d.Amount ≤ 0 then (donations, Except.error DonErr.invalidPayment)
  else if d.DonorName = "" ∨ d.DonorEmail = "" then
    (donations, Except.error DonErr.missingDonorInfo)
  else if d.PaymentMethod = "" then
    (donations, Except.error DonErr.missingPaymentMethod)
  else
    let stored := storedDonation donations d now
    (donations ++ [stored], Except.ok (stored, GenerateReceipt stored now))

/-- The write the confirmation listener performs on the matched donation:
status "Completed" plus the confirmation's transaction ID on success,
status "Failed" otherwise. -/
def confirmedDonation (d : Donation) (c : PaymentConfirmation) : Donation :=
  if c.Success then { d with Status := "Completed", TransactionID := c.TransactionID }
  else { d with Status := "Failed" }

/-- One iteration of `confirmationListener`: under the lock, the first
donation whose ID matches the confirmation gets status "Completed" plus the
returned transaction ID on success, or status "Failed"; a confirmation with
no matching donation is discarded. -/
def applyConfirmation : List Donation → PaymentConfirmation → List Donation
  | [], _ => []
  | d :: rest, c =>
    if d.ID = c.DonationID then confirmedDonation d c :: rest
    else d :: applyConfirmation rest c

/-- Donation lookup by ID (first match). -/
def findDonation : List Donation → String → Option Donation
  | [], _ => none
  | d :: rest, id => if d.ID = id then some d else findDonation rest id

/-! ### Authentication (register / verify / login) -/

structure User where
  ID : String
  Email : String
  Username : String
  Password : String
  Role : String
  IsAdmin : Bool
  CreatedAt : Int
  IsActive : Bool
deriving DecidableEq

structure AuthToken where
  Token : String
  UserID : String
  ExpiresAt : Int
  Role : String
  IsAdmin : Bool
  Username : String
  Email : String
deriving DecidableEq

structure PendingRegistration where
  Email : String
  Username : String
  HashedPassword : String
  Code : String
  ExpiresAt : Int
deriving DecidableEq

structure AuthState where
  users : List User
  usersByEmail : List (String × User)
  pendingRegs : List (String × PendingRegistration)
  tokenStore : List (String × AuthToken)
deriving DecidableEq

def emptyAuth : AuthState := ⟨[], [], [], []⟩

inductive AuthErr where
  | invalidCredentials
  | tokenExpired
deriving DecidableEq

/-- `strings.ToLower` on the ASCII range the system uses, modeled
structurally over the character list (kernel-computable; agrees with
`String.toLower`, which lowers exactly the basic latin letters). -/
def toLowerString (s : String) : String :=
  ⟨s.data.map Char.toLower⟩

/-- `strings.TrimSpace`: leading and trailing whitespace removed, modeled
structurally over the character list. -/
def trimSpace (s : String) : String :=
  ⟨(((s.data.dropWhile Char.isWhitespace).reverse).dropWhile
      Char.isWhitespace).reverse⟩

/-- `hashPassword` from the source: a deterministic injective transform. -/
def hashPassword (password : String) : String :=
  "hashed_" ++ password ++ "_pawtnersalt"

/-- `generateToken` from the source, with the nanosecond timestamp as an
oracle parameter. -/
def generateToken (userID : String) (now : Int) : String :=
  "tok_" ++ userID ++ "_" ++ toString now

/-- `fmt.Sprintf("usr-%03d", n)`. -/
def usrIDString (n : Nat) : String := "usr-" ++ pad3 n

inductive RegResult where
  | invalidInput
  | alreadyExists
  | accepted
deriving DecidableEq

/-- The state-relevant core of `registerHandler`: normalizes the email with
`strings.TrimSpace(strings.ToLower(·))`, trims the username, rejects empty
fields, rejects an email that already has a UserAccount, and otherwise
overwrites the pending registration with the freshly generated code (oracle
parameter) and a 5-minute expiry (300 seconds; times in seconds).  The
verification email is fire-and-forget and does not affect the result. -/
def registerHandler (st : AuthState) (email username password code : String)
    (now : Int) : AuthState × RegResult :=
  let e := trimSpace (toLowerString email)
  let u := trimSpace username
  if e = "" ∨ u = "" ∨ password = "" then (st, RegResult.invalidInput)
  else if (alookup st.usersByEmail e).isSome then (st, RegResult.alreadyExists)
  else
    let pending : PendingRegistration := ⟨e, u, hashPassword password, code, now + 300⟩
    ({ st with pendingRegs := aset st.pendingRegs e pending }, RegResult.accepted)

inductive VerifyResult where
  | noPending
  | codeExpired
  | codeMismatch
  | created (u : User)
deriving DecidableEq

/-- The state-relevant core of `verifyEmailHandler`: looks up the pending
registration under the normalized email; expired ↦ delete + `codeExpired`;
wrong code ↦ `codeMismatch`; otherwise creates the UserAccount from the
stored digest, indexes it by email, and deletes the pending record. -/
def verifyEmailHandler (st : AuthState) (email code : String) (now : Int) :
    AuthState × VerifyResult :=
  let e := trimSpace (toLowerString email)
  let c := trimSpace code
  match alookup st.pendingRegs e with
  | none => (st, VerifyResult.noPending)
  | some pending =>
    if now > pending.ExpiresAt then
      ({ st with pendingRegs := adel st.pendingRegs e }, VerifyResult.codeExpired)
    else if c ≠ pending.Code then (st, VerifyResult.codeMismatch)
    else
      let user : User := ⟨usrIDString (st.users.length + 1), pending.Email,
        pending.Username, pending.HashedPassword, "user", false, now, true⟩
      ({ st with
          users := st.users ++ [user],
          usersByEmail := aset st.usersByEmail user.Email user,
          pendingRegs := adel st.pendingRegs e }, VerifyResult.created user)

/-- `Login` from the source: empty email or password fail before the store
is read; an unknown email and a wrong password fail with the same error
value; success issues a 24-hour token (86400 seconds).  The submitted email
is looked up exactly as typed — `loginHandler` performs no normalization. -/
def Login (st : AuthState) (email password : String) (now : Int) :
    AuthState × Except AuthErr AuthToken :=
  if email = "" ∨ password = "" then (st, Except.error AuthErr.invalidCredentials)
  else
    match alookup st.usersByEmail email with
    | none => (st, Except.error AuthErr.invalidCredentials)
    | some user =>
      if user.Password ≠ hashPassword password then
        (st, Except.error AuthErr.invalidCredentials)
      else
        let token : AuthToken := ⟨generateToken user.ID now, user.ID, now + 86400,
          user.Role, user.IsAdmin, user.Username, user.Email⟩
        ({ st with tokenStore := aset st.tokenStore token.Token token },
         Except.ok token)

/-! ### Notification delivery boundary -/

inductive EmailErr where
  | emailFailed
deriving DecidableEq

/-- `SendEmail` from the source.  `transportOk` abstracts the out-of-scope
`smtp.SendMail` collaborator (send-or-fail); an unconfigured SMTP account
(empty user or password) skips the transport and reports success. -/
def SendEmail (toAddr subject htmlBody : String) (emailShouldFail : Bool)
    (smtpUser smtpPass : String) (transportOk : Bool) : Except EmailErr Unit :=
  if toAddr = "" ∨ subject = "" then Except.error EmailErr.emailFailed
  else if emailShouldFail then Except.error EmailErr.emailFailed
  else if smtpUser = "" ∨ smtpPass = "" then Except.ok ()
  else if transportOk then Except.ok ()
  else Except.error EmailErr.emailFailed

/-! ### Query engine (filters and free-text search) -/

/-- The closed set of `Filterable` implementations in the source. -/
inductive Filterable where
  | species (s : String)
  | status (s : String)
  | ageRange (min max : Int)
deriving DecidableEq

/-- `strings.EqualFold` on the ASCII fold used by the data set. -/
def equalFold (a b : String) : Bool := toLowerString a == toLowerString b

/-- The predicate each filter applies to one record: species equality is
case-insensitive, status equality is exact, and a zero bound of the age
range means unbounded on that side. -/
def filterPred : Filterable → Pet → Bool
  | Filterable.species s, p => equalFold p.Species s
  | Filterable.status s, p => p.Status == s
  | Filterable.ageRange mn mx, p =>
      (mn == 0 || decide (p.Age ≥ mn)) && (mx == 0 || decide (p.Age ≤ mx))

/-- The `Filter` method of each variant: keeps the matching records in
order. -/
def runFilter (f : Filterable) (petList : List Pet) : List Pet :=
  petList.filter (filterPred f)

/-- `ApplyFilters` from the source: sequential narrowing. -/
def ApplyFilters (petList : List Pet) (filters : List Filterable) : List Pet :=
  filters.foldl (fun acc f => runFilter f acc) petList

/-- Substring test (`strings.Contains`). -/
def strContains (hay needle : String) : Bool :=
  decide (needle.data <:+: hay.data)

/-- The free-text match of `SearchPets`: case-insensitive substring on
name, species or breed. -/
def matchesQuery (q : String) (p : Pet) : Bool :=
  strContains (toLowerString p.Name) (toLowerString q) ||
  strContains (toLowerString p.Species) (toLowerString q) ||
  strContains (toLowerString p.Breed) (toLowerString q)

inductive QueryErr where
  | queryOrFiltersRequired
deriving DecidableEq

/-- `SearchPets` from the source, over the snapshot it copies out of the
lock: rejects an empty query with no filters, otherwise narrows by the
free-text query (when non-empty) and then by the filters (when any). -/
def SearchPets (petsSnapshot : List Pet) (query : String)
    (filters : List Filterable) : Except QueryErr (List Pet) :=
  if query = "" ∧ filters = [] then Except.error QueryErr.queryOrFiltersRequired
  else
    let result := if query ≠ "" then petsSnapshot.filter (matchesQuery query)
                  else petsSnapshot
    Except.ok (if filters.length > 0 then ApplyFilters result filters else result)

/-! ### Concrete fixtures used by witnesses and counterexamples -/

def janeDonation : Donation :=
  { emptyDonation with
    DonorName := "Jane Doe", DonorEmail := "jane@example.com",
    Amount := 500, PaymentMethod := "UPI" }

def janeUser : User :=
  ⟨"usr-001", "jane@example.com", "jane", hashPassword "secret123", "user",
   false, 0, true⟩

def oneUserAuth : AuthState :=
  ⟨[janeUser], [("jane@example.com", janeUser)], [], []⟩

/-! ## Helper lemmas -/

theorem alookup_aset_self {α : Type} (m : List (String × α)) (k : String) (v : α) :
    alookup (aset m k v) k = some v := by
  induction m with
  | nil => simp [aset, alookup]
  | cons kv rest ih =>
    by_cases h : kv.1 = k
    · simp [aset, h, alookup]
    · simp [aset, h, alookup, ih]

theorem alookup_aset_ne {α : Type} (m : List (String × α)) (k j : String) (v : α)
    (h : j ≠ k) : alookup (aset m k v) j = alookup m j := by
  have hkj : k ≠ j := fun hh => h hh.symm
  induction m with
  | nil => simp [aset, alookup, hkj]
  | cons kv rest ih =>
    by_cases hk : kv.1 = k
    · simp [aset, hk, alookup, hkj]
    · simp [aset, hk, alookup, ih]

theorem sumCounts_aset (m : CountMap) (k : String) (v : Int) :
    sumCounts (aset m k v) = sumCounts m - mapGet m k + v := by
  induction m with
  | nil => simp [aset, sumCounts, mapGet, alookup]
  | cons kv rest ih =>
    by_cases h : kv.1 = k
    · simp [aset, h, sumCounts, mapGet, alookup]
      ring
    · simp only [aset, if_neg h, sumCounts, List.map_cons, List.sum_cons,
        mapGet, alookup, if_neg h] at *
      omega

theorem sumCounts_incrCount (m : CountMap) (k : String) :
    sumCounts (incrCount m k) = sumCounts m + 1 := by
  rw [incrCount, sumCounts_aset]; ring

theorem sumCounts_decrCount (m : CountMap) (k : String) :
    sumCounts (decrCount m k) = sumCounts m - 1 := by
  rw [decrCount, sumCounts_aset]; ring

theorem removeFirstPet_length (l : List Pet) (id : String) (pet : Pet)
    (h : findPet l id = some pet) :
    (removeFirstPet l id).length + 1 = l.length := by
  induction l with
  | nil => simp [findPet] at h
  | cons p rest ih =>
    by_cases hp : p.ID = id
    · simp [removeFirstPet, hp]
    · simp only [findPet, if_neg hp] at h
      simp [removeFirstPet, hp, ih h]

theorem alookup_mem {α : Type} {m : List (String × α)} {k : String} {v : α}
    (h : alookup m k = some v) : (k, v) ∈ m := by
  induction m with
  | nil => simp [alookup] at h
  | cons kv rest ih =>
    by_cases hk : kv.1 = k
    · simp only [alookup, if_pos hk, Option.some.injEq] at h
      subst hk
      subst h
      exact List.mem_cons_self _ _
    · simp only [alookup, if_neg hk] at h
      exact List.mem_cons_of_mem _ (ih h)

theorem mem_adel {α : Type} {m : List (String × α)} {k : String}
    {kv : String × α} (h : kv ∈ adel m k) : kv ∈ m := by
  induction m with
  | nil => simp [adel] at h
  | cons e rest ih =>
    by_cases he : e.1 = k
    · simp only [adel, if_pos he] at h
      exact List.mem_cons_of_mem _ h
    · simp only [adel, if_neg he] at h
      rcases List.mem_cons.mp h with rfl | hmem
      · exact List.mem_cons_self _ _
      · exact List.mem_cons_of_mem _ (ih hmem)

theorem mem_adel_keyNe {α : Type} {m : List (String × α)} {k : String}
    (hnd : (m.map Prod.fst).Nodup) {kv : String × α} (h : kv ∈ adel m k) :
    kv.1 ≠ k := by
  induction m with
  | nil => simp [adel] at h
  | cons e rest ih =>
    simp only [List.map_cons, List.nodup_cons] at hnd
    obtain ⟨hhead, htail⟩ := hnd
    by_cases he : e.1 = k
    · simp only [adel, if_pos he] at h
      intro hk
      exact hhead (List.mem_map.mpr ⟨kv, h, by rw [hk, he]⟩)
    · simp only [adel, if_neg he] at h
      rcases List.mem_cons.mp h with rfl | hmem
      · exact he
      · exact ih htail hmem

theorem adel_keys_sublist {α : Type} (m : List (String × α)) (k : String) :
    ((adel m k).map Prod.fst).Sublist (m.map Prod.fst) := by
  induction m with
  | nil => simp [adel]
  | cons e rest ih =>
    by_cases he : e.1 = k
    · simp only [adel, if_pos he, List.map_cons]
      exact List.sublist_cons_self _ _
    · simp only [adel, if_neg he, List.map_cons]
      exact List.Sublist.cons₂ _ ih

theorem keys_adel_nodup {α : Type} {m : List (String × α)} {k : String}
    (hnd : (m.map Prod.fst).Nodup) : ((adel m k).map Prod.fst).Nodup :=
  (adel_keys_sublist m k).nodup hnd

theorem alookup_eq_none {α : Type} {m : List (String × α)} {k : String}
    (h : k ∉ m.map Prod.fst) : alookup m k = none := by
  induction m with
  | nil => rfl
  | cons e rest ih =>
    simp only [List.map_cons, List.mem_cons] at h
    push_neg at h
    have hne : ¬ e.1 = k := fun hh => h.1 hh.symm
    simp [alookup, hne, ih h.2]

theorem alookup_adel_self {α : Type} {m : List (String × α)} {k : String}
    (hnd : (m.map Prod.fst).Nodup) : alookup (adel m k) k = none := by
  apply alookup_eq_none
  intro hmem
  obtain ⟨kv, hkv, hfst⟩ := List.mem_map.mp hmem
  exact mem_adel_keyNe hnd hkv hfst

theorem findPet_isSome_iff (l : List Pet) (id : String) :
    (findPet l id).isSome = true ↔ id ∈ l.map Pet.ID := by
  induction l with
  | nil => simp [findPet]
  | cons p rest ih =>
    by_cases hp : p.ID = id
    · simp [findPet, hp]
    · have hne : ¬ id = p.ID := fun hh => hp hh.symm
      simp [findPet, hp, ih, hne]

theorem findPet_removeFirst_ne (l : List Pet) (id id' : String) (h : id' ≠ id) :
    findPet (removeFirstPet l id) id' = findPet l id' := by
  induction l with
  | nil => rfl
  | cons p rest ih =>
    by_cases hp : p.ID = id
    · have hne : ¬ p.ID = id' := by rw [hp]; exact fun hh => h hh.symm
      have hne2 : ¬ id = id' := fun hh => h hh.symm
      simp [removeFirstPet, hp, findPet, hne, hne2]
    · simp [removeFirstPet, hp, findPet, ih]

theorem map_ID_set (l : List Pet) (i : Nat) (q : Pet)
    (h : q.ID = (l.getD i emptyPet).ID) :
    (l.set i q).map Pet.ID = l.map Pet.ID := by
  induction l generalizing i with
  | nil => rfl
  | cons p rest ih =>
    cases i with
    | zero =>
      simp only [List.getD_cons_zero] at h
      simp [List.set, h]
    | succ n =>
      simp only [List.getD_cons_succ] at h
      simp [List.set, ih n h]

theorem applyUpdate_ID (pet u : Pet) : (applyUpdate pet u).ID = pet.ID := rfl

theorem consistent_updatePet (s : RepoState) (id : String) (u : Pet)
    (h : consistentRepo s) : consistentRepo (UpdatePet s id u).1 := by
  obtain ⟨hlen, hsum, hnd, hcov⟩ := h
  unfold UpdatePet
  cases hk : alookup s.petsByID id with
  | none => exact ⟨hlen, hsum, hnd, hcov⟩
  | some i =>
    dsimp only
    refine ⟨by simpa [List.length_set] using hlen, ?_, hnd, ?_⟩
    · dsimp only
      split_ifs with hst
      · rw [sumCounts_incrCount, sumCounts_decrCount]
        omega
      · exact hsum
    · intro kv hkv
      dsimp only at hkv ⊢
      have hold := hcov kv hkv
      have hids : ((s.backing.set i (applyUpdate (derefSlot s.backing i) u)).take
          s.petsLen).map Pet.ID = (s.backing.take s.petsLen).map Pet.ID := by
        rw [List.map_take, List.map_take, map_ID_set]
        rfl
      simp only [livePets] at hold ⊢
      rw [findPet_isSome_iff] at hold ⊢
      rw [hids]
      exact hold

theorem consistent_deletePet (s : RepoState) (id : String)
    (h : consistentRepo s) : consistentRepo (DeletePet s id).1 := by
  obtain ⟨hlen, hsum, hnd, hcov⟩ := h
  unfold DeletePet
  cases hk : alookup s.petsByID id with
  | none => exact ⟨hlen, hsum, hnd, hcov⟩
  | some i =>
    dsimp only
    cases hf : findPet (s.backing.take s.petsLen) id with
    | none =>
      exfalso
      have hsome := hcov (id, i) (alookup_mem hk)
      unfold livePets at hsome
      rw [hf] at hsome
      simp at hsome
    | some pet' =>
      have hlivelen : (s.backing.take s.petsLen).length = s.petsLen := by
        rw [List.length_take]
        omega
      have hrem : (removeFirstPet (s.backing.take s.petsLen) id).length + 1 =
          s.petsLen := by
        have hx := removeFirstPet_length _ id pet' hf
        omega
      refine ⟨?_, ?_, keys_adel_nodup hnd, ?_⟩
      · dsimp only
        simp only [List.length_append, List.length_drop]
        omega
      · dsimp only
        rw [sumCounts_decrCount]
        omega
      · intro kv hkv
        dsimp only at hkv ⊢
        have hne := mem_adel_keyNe hnd hkv
        have hold := hcov kv (mem_adel hkv)
        have hlen2 : (removeFirstPet (s.backing.take s.petsLen) id).length =
            s.petsLen - 1 := by omega
        have hlp : (removeFirstPet (s.backing.take s.petsLen) id ++
            s.backing.drop (s.petsLen - 1)).take (s.petsLen - 1) =
            removeFirstPet (s.backing.take s.petsLen) id := by
          rw [← hlen2]
          exact List.take_left _ _
        simp only [livePets] at hold ⊢
        rw [hlp, findPet_removeFirst_ne _ _ _ hne]
        exact hold

theorem consistent_applyOp (s : RepoState) (op : RepoOp)
    (h : consistentRepo s) : consistentRepo (applyOp s op) := by
  cases op with
  | update id u => exact consistent_updatePet s id u h
  | del id => exact consistent_deletePet s id h

/-! ## Claim theorems -/

/-- C1: for every sequence of `updatePet` and `deletePet` calls, starting
from a consistent repository state (live length within the backing array,
status-bucket sum equal to the live pet count, a duplicate-free key set,
and every `petsByID` key covered by a live pet — all maintained by the Go
program), the sum over all buckets of the status-count index equals the
number of live pets after the sequence has run, and the state is again
consistent; since this holds for every sequence, it holds after every
prefix, i.e. after every call.  A successful `deletePet` performs exactly
one bucket decrement and removes exactly one live pet, and a
status-bearing `updatePet` performs one balanced decrement/increment —
true even through stale pointers, because which bucket is touched never
affects the sum. -/
theorem statusCountSum_eq_livePets (s : RepoState) (ops : List RepoOp)
    (h : consistentRepo s) :
    sumCounts (runOps s ops).statusCounts =
      ((livePets (runOps s ops)).length : Int) ∧
    consistentRepo (runOps s ops) := by
  have hall : consistentRepo (runOps s ops) := by
    induction ops generalizing s with
    | nil => exact h
    | cons op rest ih => exact ih (applyOp s op) (consistent_applyOp s op h)
  refine ⟨?_, hall⟩
  obtain ⟨hlen, hsum, -, -⟩ := hall
  rw [livePets, List.length_take, Nat.min_eq_left hlen]
  exact hsum

/-- Witness for C1: the seeded repository is consistent, and the bucket
sum equals the live pet count after a concrete status-changing update and
a delete. -/
theorem statusCountSum_eq_livePets_witness :
    consistentRepo seedState ∧
    sumCounts (runOps seedState
      [RepoOp.update "pet-001" { emptyPet with Status := "Adopted" },
       RepoOp.del "pet-002"]).statusCounts =
    ((livePets (runOps seedState
      [RepoOp.update "pet-001" { emptyPet with Status := "Adopted" },
       RepoOp.del "pet-002"])).length : Int) :=
  ⟨by decide, (statusCountSum_eq_livePets seedState
      [RepoOp.update "pet-001" { emptyPet with Status := "Adopted" },
       RepoOp.del "pet-002"] (by decide)).1⟩

/-- C3 [code bug]: after a delete, the next insert reuses an ID that is
still stored.  From the seeded repository (pets pet-001, pet-002, pet-003)
delete "pet-001"; inserting a valid new pet then assigns
`fmt.Sprintf("pet-%03d", len(pets)+1)` = "pet-003", the ID of a pet that is
still live — contradicting the spec's globally-unique zero-padded sequence
and overwriting the `petsByID` pointer stored under "pet-003". -/
theorem petID_reused_after_delete :
    (validatePet rockyPet).1 = true ∧
    (DeletePet seedState "pet-001").2 = Except.ok () ∧
    (addPet (DeletePet seedState "pet-001").1 rockyPet 5).2.ID = "pet-003" ∧
    (findPet (livePets (DeletePet seedState "pet-001").1) "pet-003").isSome =
      true := by
  decide

/-- C4 counterexample, two concrete traces.  First, `deletePet` does not
remove the deleted pet from the breed index: deleting "pet-003" (breed
"Beagle") from the seeded repository succeeds, yet "pet-003" is still
listed in the "Beagle" bucket of `petsByBreed`.  Second, it does not
reliably remove the deleted pet from the status-count index either: after
deleting "pet-001", the pointer stored under "pet-002" has gone stale (the
slice shift moved Charlie into its slot), so deleting "pet-002" — Luna,
status "Available" — decrements the "Under Care" bucket to 0 and leaves
"Available" at 1, while the one remaining live pet is Charlie, "Under
Care".  Both refute "removes that pet ... from every index". -/
theorem deletePet_index_counterexample :
    (DeletePet seedState "pet-003").2 = Except.ok () ∧
    ((sliceMapGet (DeletePet seedState "pet-003").1.petsByBreed "Beagle").contains
      "pet-003") = true ∧
    (DeletePet (DeletePet seedState "pet-001").1 "pet-002").2 = Except.ok () ∧
    mapGet (DeletePet (DeletePet seedState "pet-001").1 "pet-002").1.statusCounts
      "Available" = 1 ∧
    mapGet (DeletePet (DeletePet seedState "pet-001").1 "pet-002").1.statusCounts
      "Under Care" = 0 ∧
    lunaPet.Status = "Available" ∧
    livePets (DeletePet (DeletePet seedState "pet-001").1 "pet-002").1 =
      [charliePet] := by
  decide

/-- C4 [amended]: `deletePet(id)` on an id present in the by-ID map
succeeds: it removes the id from the map, removes the first pet with that
ID from the primary collection, and decrements the status-count bucket of
the record its stored pointer currently targets — which is the deleted
pet's own bucket only while the pointer is not stale, and after an earlier
mid-slice delete can be a different pet's bucket — while the breed index
is left unchanged.  `deletePet` on an absent id, in particular the second
of two consecutive deletes of the same id, returns NotFound and leaves the
state unchanged. -/
theorem deletePet_spec (s : RepoState) (id : String) (i : Nat)
    (hkey : alookup s.petsByID id = some i)
    (hfind : (findPet (livePets s) id).isSome = true)
    (hnd : (s.petsByID.map Prod.fst).Nodup)
    (hlen : s.petsLen ≤ s.backing.length) :
    (DeletePet s id).2 = Except.ok () ∧
    livePets (DeletePet s id).1 = removeFirstPet (livePets s) id ∧
    alookup (DeletePet s id).1.petsByID id = none ∧
    (DeletePet s id).1.statusCounts =
      decrCount s.statusCounts (derefSlot s.backing i).Status ∧
    (DeletePet s id).1.petsByBreed = s.petsByBreed ∧
    DeletePet (DeletePet s id).1 id =
      ((DeletePet s id).1, Except.error RepoErr.petNotFound) ∧
    (∀ j, alookup s.petsByID j = none →
      DeletePet s j = (s, Except.error RepoErr.petNotFound)) := by
  unfold livePets at hfind
  obtain ⟨pet', hf⟩ := Option.isSome_iff_exists.mp hfind
  have hlivelen : (s.backing.take s.petsLen).length = s.petsLen := by
    rw [List.length_take]
    omega
  have hrem : (removeFirstPet (s.backing.take s.petsLen) id).length + 1 =
      s.petsLen := by
    have hx := removeFirstPet_length _ id pet' hf
    omega
  have hDel : DeletePet s id =
      ({ backing := removeFirstPet (s.backing.take s.petsLen) id ++
           s.backing.drop (s.petsLen - 1),
         petsLen := s.petsLen - 1,
         petsByID := adel s.petsByID id,
         statusCounts := decrCount s.statusCounts (derefSlot s.backing i).Status,
         petsByBreed := s.petsByBreed }, Except.ok ()) := by
    simp [DeletePet, hkey, hf]
  have hk2 : alookup (adel s.petsByID id) id = none := alookup_adel_self hnd
  refine ⟨by rw [hDel], ?_, by rw [hDel]; exact hk2, by rw [hDel], by rw [hDel],
    ?_, ?_⟩
  · rw [hDel]
    simp only [livePets]
    have hlen2 : (removeFirstPet (s.backing.take s.petsLen) id).length =
        s.petsLen - 1 := by omega
    rw [← hlen2]
    exact List.take_left _ _
  · rw [hDel]
    simp [DeletePet, hk2]
  · intro j hj
    simp [DeletePet, hj]

/-- Witness for C4: deleting the stored "pet-003" from the seeded
repository succeeds and a second delete of the same id reports NotFound. -/
theorem deletePet_spec_witness :
    alookup seedState.petsByID "pet-003" = some 2 ∧
    (DeletePet seedState "pet-003").2 = Except.ok () ∧
    DeletePet (DeletePet seedState "pet-003").1 "pet-003" =
      ((DeletePet seedState "pet-003").1, Except.error RepoErr.petNotFound) :=
  ⟨by decide,
   (deletePet_spec seedState "pet-003" 2 (by decide) (by decide) (by decide)
      (by decide)).1,
   (deletePet_spec seedState "pet-003" 2 (by decide) (by decide) (by decide)
      (by decide)).2.2.2.2.2.1⟩

/-- C5 counterexample, two concrete traces.  First, a non-empty `Gender`
in the partial is not written: updating the stored "pet-001" (Gender
"Male") with a partial whose only non-zero field is Gender "Female"
succeeds but returns the stored record completely unchanged.  Second, the
update is not applied to the record stored under the id at all once the
pointer is stale: after deleting "pet-001", updating "pet-002" with Name
"Lulu" mutates and returns Charlie's record (ID "pet-003"), while the live
record that actually carries ID "pet-002" — Luna — keeps her old Name.
Both refute "applies ... to the stored record [under that id]". -/
theorem updatePet_pointer_counterexample :
    ({ emptyPet with Gender := "Female" } : Pet).Gender ≠ "" ∧
    (UpdatePet seedState "pet-001" { emptyPet with Gender := "Female" }).2 =
      Except.ok maxPet ∧
    maxPet.Gender = "Male" ∧
    (UpdatePet (DeletePet seedState "pet-001").1 "pet-002"
        { emptyPet with Name := "Lulu" }).2 =
      Except.ok { charliePet with Name := "Lulu" } ∧
    ({ charliePet with Name := "Lulu" } : Pet).ID = "pet-003" ∧
    findPet (livePets (UpdatePet (DeletePet seedState "pet-001").1 "pet-002"
        { emptyPet with Name := "Lulu" }).1) "pet-002" = some lunaPet ∧
    lunaPet.Name = "Luna" := by
  decide

/-- C5 [amended]: `updatePet(id, partial)` on an id present in the by-ID
map dereferences the stored pointer and applies exactly the non-empty
Name, Species, Breed, Status, Description and the positive Age of the
partial to the record that pointer currently targets — the record stored
under that id only while the pointer is not stale from earlier mid-slice
deletes or duplicate-ID overwrites — writing it in place and returning it;
every zero-valued field among those leaves the target's field unchanged,
and the target's ID, Gender, IsVaccinated, CreatedAt, Tags and Attributes
are never modified, whatever the partial holds in them.  An absent id
returns NotFound and leaves the state unchanged. -/
theorem updatePet_partial_semantics (s : RepoState) (id : String) (i : Nat)
    (update : Pet) (hkey : alookup s.petsByID id = some i) :
    (UpdatePet s id update).2 =
      Except.ok (applyUpdate (derefSlot s.backing i) update) ∧
    (UpdatePet s id update).1.backing =
      s.backing.set i (applyUpdate (derefSlot s.backing i) update) ∧
    (UpdatePet s id update).1.petsLen = s.petsLen ∧
    (∀ pet u : Pet,
      (applyUpdate pet u).Name = (if u.Name = "" then pet.Name else u.Name) ∧
      (applyUpdate pet u).Species =
        (if u.Species = "" then pet.Species else u.Species) ∧
      (applyUpdate pet u).Breed = (if u.Breed = "" then pet.Breed else u.Breed) ∧
      (applyUpdate pet u).Age = (if u.Age > 0 then u.Age else pet.Age) ∧
      (applyUpdate pet u).Status =
        (if u.Status = "" then pet.Status else u.Status) ∧
      (applyUpdate pet u).Description =
        (if u.Description = "" then pet.Description else u.Description) ∧
      (applyUpdate pet u).ID = pet.ID ∧
      (applyUpdate pet u).Gender = pet.Gender ∧
      (applyUpdate pet u).IsVaccinated = pet.IsVaccinated ∧
      (applyUpdate pet u).CreatedAt = pet.CreatedAt ∧
      (applyUpdate pet u).Tags = pet.Tags ∧
      (applyUpdate pet u).Attributes = pet.Attributes) ∧
    (∀ j, alookup s.petsByID j = none →
      UpdatePet s j update = (s, Except.error RepoErr.petNotFound)) := by
  refine ⟨by simp [UpdatePet, hkey], by simp [UpdatePet, hkey],
    by simp [UpdatePet, hkey], ?_, ?_⟩
  · intro pet u
    refine ⟨?_, ?_, ?_, ?_, ?_, ?_, rfl, rfl, rfl, rfl, rfl, rfl⟩ <;>
      simp [applyUpdate, ite_not]
  · intro j hj
    simp [UpdatePet, hj]

/-- Witness for C5: updating the stored "pet-001" with a partial that only
carries a new Name returns the pointer target with the Name written, and
the Gender of the target is left as stored. -/
theorem updatePet_partial_semantics_witness :
    alookup seedState.petsByID "pet-001" = some 0 ∧
    (UpdatePet seedState "pet-001" { emptyPet with Name := "Maximus" }).2 =
      Except.ok (applyUpdate (derefSlot seedState.backing 0)
        { emptyPet with Name := "Maximus" }) ∧
    (applyUpdate maxPet { emptyPet with Name := "Maximus" }).Gender =
      maxPet.Gender :=
  ⟨by decide,
   (updatePet_partial_semantics seedState "pet-001" 0
      { emptyPet with Name := "Maximus" } (by decide)).1,
   ((updatePet_partial_semantics seedState "pet-001" 0
      { emptyPet with Name := "Maximus" } (by decide)).2.2.2.1 maxPet
      { emptyPet with Name := "Maximus" }).2.2.2.2.2.2.2.1⟩

theorem applyConfirmation_of_none (ds : List Donation) (c : PaymentConfirmation)
    (h : findDonation ds c.DonationID = none) : applyConfirmation ds c = ds := by
  induction ds with
  | nil => rfl
  | cons d rest ih =>
    by_cases hd : d.ID = c.DonationID
    · simp [findDonation, hd] at h
    · simp only [findDonation, if_neg hd] at h
      simp [applyConfirmation, hd, ih h]

theorem applyConfirmation_of_some (ds : List Donation) (c : PaymentConfirmation)
    (d : Donation) (h : findDonation ds c.DonationID = some d) :
    findDonation (applyConfirmation ds c) c.DonationID =
      some (confirmedDonation d c) := by
  induction ds with
  | nil => simp [findDonation] at h
  | cons dd rest ih =>
    by_cases hd : dd.ID = c.DonationID
    · simp only [findDonation, if_pos hd, Option.some.injEq] at h
      subst h
      have hcid : (confirmedDonation dd c).ID = dd.ID := by
        unfold confirmedDonation
        by_cases hs : c.Success <;> simp [hs]
      simp [applyConfirmation, hd, findDonation, hcid]
    · simp only [findDonation, if_neg hd] at h
      simp [applyConfirmation, hd, findDonation, ih h]

/-- C2 counterexample: a donation record is not created with status
Pending, and the transaction ID is written by the creating operation
itself.  Processing a concrete valid donation from the empty store appends
a record whose status is already "Completed" and whose transaction ID is
already filled in by `ProcessDonation` — before any `PaymentConfirmation`
is consumed. -/
theorem donation_not_created_pending :
    (ProcessDonation [] janeDonation 1000).1 =
      [{ janeDonation with
          ID := "don-001", TransactionID := "txn-1000",
          Status := "Completed", CreatedAt := 1000 }] ∧
    ("Completed" : String) ≠ "Pending" ∧
    ("txn-1000" : String) ≠ "" := by
  refine ⟨?_, by decide, by decide⟩
  decide

/-- C2 [amended]: every valid donation record is created by
`ProcessDonation` itself already carrying status "Completed" and a
transaction ID of its own — the Pending state never occurs in the store —
and the PaymentPipeline's confirmation listener, consuming a
`PaymentConfirmation`, afterwards overwrites the matched donation's status
to "Completed" (with the confirmation's transaction ID) on success or to
"Failed" on failure, discarding a confirmation whose donation ID is not
found. -/
theorem donation_status_lifecycle (ds : List Donation) (d : Donation) (now : Int)
    (hAmt : ¬ d.Amount ≤ 0) (hName : d.DonorName ≠ "") (hEmail : d.DonorEmail ≠ "")
    (hMethod : d.PaymentMethod ≠ "") :
    (ProcessDonation ds d now).2 =
      Except.ok (storedDonation ds d now, GenerateReceipt (storedDonation ds d now) now) ∧
    (ProcessDonation ds d now).1 = ds ++ [storedDonation ds d now] ∧
    (storedDonation ds d now).Status = "Completed" ∧
    (storedDonation ds d now).TransactionID = txnIDString now ∧
    (∀ (list : List Donation) (c : PaymentConfirmation) (rec : Donation),
        findDonation list c.DonationID = some rec →
        findDonation (applyConfirmation list c) c.DonationID =
          some (confirmedDonation rec c)) ∧
    (∀ (list : List Donation) (c : PaymentConfirmation),
        findDonation list c.DonationID = none → applyConfirmation list c = list) ∧
    (∀ (rec : Donation) (c : PaymentConfirmation),
        (confirmedDonation rec c).Status =
          (if c.Success then "Completed" else "Failed") ∧
        (confirmedDonation rec c).TransactionID =
          (if c.Success then c.TransactionID else rec.TransactionID)) := by
  refine ⟨by simp [ProcessDonation, hAmt, hName, hEmail, hMethod],
    by simp [ProcessDonation, hAmt, hName, hEmail, hMethod],
    rfl, rfl,
    fun list c rec h => applyConfirmation_of_some list c rec h,
    fun list c h => applyConfirmation_of_none list c h,
    fun rec c => ?_⟩
  unfold confirmedDonation
  by_cases hs : c.Success <;> simp [hs]

/-- Witness for C2 [amended]: the concrete valid donation is accepted and
its stored record already carries status "Completed". -/
theorem donation_status_lifecycle_witness :
    ¬ janeDonation.Amount ≤ 0 ∧
    (ProcessDonation [] janeDonation 1000).2 =
      Except.ok (storedDonation [] janeDonation 1000,
        GenerateReceipt (storedDonation [] janeDonation 1000) 1000) ∧
    (storedDonation [] janeDonation 1000).Status = "Completed" :=
  ⟨by decide,
   (donation_status_lifecycle [] janeDonation 1000 (by decide) (by decide)
     (by decide) (by decide)).1,
   (donation_status_lifecycle [] janeDonation 1000 (by decide) (by decide)
     (by decide) (by decide)).2.2.1⟩

theorem login_fail_of_not_found (st : AuthState) (e p : String) (now : Int)
    (h : alookup st.usersByEmail e = none) :
    Login st e p now = (st, Except.error AuthErr.invalidCredentials) := by
  by_cases hd : e = "" ∨ p = ""
  · simp [Login, hd]
  · simp [Login, hd, h]

theorem login_fail_of_wrong_password (st : AuthState) (e p : String) (now : Int)
    (u : User) (h : alookup st.usersByEmail e = some u)
    (hw : u.Password ≠ hashPassword p) :
    Login st e p now = (st, Except.error AuthErr.invalidCredentials) := by
  by_cases hd : e = "" ∨ p = ""
  · simp [Login, hd]
  · simp [Login, hd, h, hw]

/-- C7: login with an empty email or empty password fails with
InvalidCredentials for every store content (the store is never consulted:
the result and the unchanged state are the same whatever the store holds),
and the failure for a nonexistent email is the identical error value as the
failure for an existing email with a wrong password — indistinguishable to
the caller. -/
theorem login_constant_shape_failure :
    (∀ (st : AuthState) (p : String) (now : Int),
        Login st "" p now = (st, Except.error AuthErr.invalidCredentials)) ∧
    (∀ (st : AuthState) (e : String) (now : Int),
        Login st e "" now = (st, Except.error AuthErr.invalidCredentials)) ∧
    (∀ (st₁ st₂ : AuthState) (e₁ p₁ e₂ p₂ : String) (n₁ n₂ : Int) (u : User),
        alookup st₁.usersByEmail e₁ = none →
        alookup st₂.usersByEmail e₂ = some u →
        u.Password ≠ hashPassword p₂ →
        (Login st₁ e₁ p₁ n₁).2 = Except.error AuthErr.invalidCredentials ∧
        (Login st₂ e₂ p₂ n₂).2 = Except.error AuthErr.invalidCredentials ∧
        (Login st₁ e₁ p₁ n₁).2 = (Login st₂ e₂ p₂ n₂).2) := by
  refine ⟨fun st p now => by simp [Login], fun st e now => by simp [Login],
    fun st₁ st₂ e₁ p₁ e₂ p₂ n₁ n₂ u h₁ h₂ hw => ?_⟩
  rw [login_fail_of_not_found st₁ e₁ p₁ n₁ h₁,
    login_fail_of_wrong_password st₂ e₂ p₂ n₂ u h₂ hw]
  exact ⟨rfl, rfl, rfl⟩

/-- Witness for C7: empty credentials fail on a concrete store, and the
concrete no-such-user failure equals the concrete wrong-password failure. -/
theorem login_constant_shape_failure_witness :
    Login oneUserAuth "" "pw" 0 =
      (oneUserAuth, Except.error AuthErr.invalidCredentials) ∧
    (Login emptyAuth "ghost@example.com" "pw" 0).2 =
      (Login oneUserAuth "jane@example.com" "wrongpw" 3).2 :=
  ⟨login_constant_shape_failure.1 oneUserAuth "pw" 0,
   (login_constant_shape_failure.2.2 emptyAuth oneUserAuth "ghost@example.com"
      "pw" "jane@example.com" "wrongpw" 0 3 janeUser (by decide) (by decide)
      (by decide)).2.2⟩

/-- C9: a single `SendEmail` delivery attempt fails exactly when the
recipient is empty, the subject is empty, or the simulate-failure toggle is
set; when none of these holds the attempt reports success at this boundary
(the out-of-scope transport collaborator is abstracted as send-or-fail and
taken to deliver). -/
theorem sendEmail_failure_conditions (toAddr subject body : String)
    (fail : Bool) (u p : String) (t : Bool) (ht : t = true) :
    (SendEmail toAddr subject body fail u p t = Except.error EmailErr.emailFailed ↔
      (toAddr = "" ∨ subject = "" ∨ fail = true)) ∧
    (¬(toAddr = "" ∨ subject = "" ∨ fail = true) →
      SendEmail toAddr subject body fail u p t = Except.ok ()) := by
  subst ht
  by_cases h1 : toAddr = "" ∨ subject = ""
  · constructor
    · simp [SendEmail, h1]
      tauto
    · intro hno
      exact absurd (Or.elim h1 Or.inl (fun h => Or.inr (Or.inl h))) hno
  · by_cases h2 : fail = true
    · constructor
      · simp [SendEmail, h1, h2]
      · intro hno
        exact absurd (Or.inr (Or.inr h2)) hno
    · by_cases h3 : u = "" ∨ p = ""
      · simp [SendEmail, h1, h2, h3]
      · simp [SendEmail, h1, h2, h3]

/-- Witness for C9: with the transport delivering, a non-empty recipient
and subject and a cleared toggle succeed, and the failure equivalence holds
at that input. -/
theorem sendEmail_failure_conditions_witness :
    (true = true) ∧
    SendEmail "jane@example.com" "Welcome" "<html></html>" false "smtpuser"
      "smtppass" true = Except.ok () :=
  ⟨rfl,
   (sendEmail_failure_conditions "jane@example.com" "Welcome" "<html></html>"
      false "smtpuser" "smtppass" true rfl).2 (by decide)⟩

theorem applyFilters_eq_filter_all (fs : List Filterable) (l : List Pet) :
    ApplyFilters l fs = l.filter (fun p => fs.all (fun f => filterPred f p)) := by
  induction fs generalizing l with
  | nil => simp [ApplyFilters]
  | cons f rest ih =>
    show ApplyFilters (runFilter f l) rest = _
    rw [ih (runFilter f l), runFilter, List.filter_filter]
    apply List.filter_congr
    intro p _
    simp [List.all_cons, Bool.and_comm]

theorem all_eq_of_perm {fs fs' : List Filterable} (h : fs'.Perm fs)
    (g : Filterable → Bool) : fs'.all g = fs.all g := by
  rw [Bool.eq_iff_iff, List.all_eq_true, List.all_eq_true]
  exact ⟨fun ha x hx => ha x (h.mem_iff.mpr hx), fun ha x hx => ha x (h.mem_iff.mp hx)⟩

theorem filter_comm (l : List Pet) (a b : Pet → Bool) :
    (l.filter a).filter b = (l.filter b).filter a := by
  rw [List.filter_filter, List.filter_filter]
  apply List.filter_congr
  intro p _
  rw [Bool.and_comm]

/-- C8: for every pet snapshot, every non-empty free-text query and every
list of species/status/age-range filters, narrowing by the search first and
then by the filters gives the same result as narrowing by the filters first
and then by the search, and permuting the filters among themselves also
leaves the result unchanged (the conclusions are equalities of the result
lists, so in particular the result sets coincide); `SearchPets` computes
exactly the search-then-filters composition. -/
theorem search_filter_order_independent (petsSnapshot : List Pet) (q : String)
    (fs fs' : List Filterable) (hq : q ≠ "") (hperm : fs'.Perm fs) :
    SearchPets petsSnapshot q fs =
      Except.ok (ApplyFilters (petsSnapshot.filter (matchesQuery q)) fs) ∧
    ApplyFilters (petsSnapshot.filter (matchesQuery q)) fs =
      (ApplyFilters petsSnapshot fs).filter (matchesQuery q) ∧
    ApplyFilters petsSnapshot fs' = ApplyFilters petsSnapshot fs := by
  refine ⟨?_, ?_, ?_⟩
  · cases fs with
    | nil => simp [SearchPets, hq, ApplyFilters]
    | cons f rest => simp [SearchPets, hq]
  · rw [applyFilters_eq_filter_all, applyFilters_eq_filter_all, filter_comm]
  · rw [applyFilters_eq_filter_all, applyFilters_eq_filter_all]
    apply List.filter_congr
    intro p _
    exact all_eq_of_perm hperm (fun f => filterPred f p)

/-- Witness for C8: on the seeded pets, searching "dog" then filtering by
species "Dog" and age range [0,5] equals filtering then searching, and
reversing the filter order changes nothing. -/
theorem search_filter_order_independent_witness :
    ("dog" : String) ≠ "" ∧
    ([Filterable.ageRange 0 5, Filterable.species "Dog"].Perm
      [Filterable.species "Dog", Filterable.ageRange 0 5]) ∧
    SearchPets [maxPet, lunaPet, charliePet] "dog"
        [Filterable.species "Dog", Filterable.ageRange 0 5] =
      Except.ok (ApplyFilters
        ([maxPet, lunaPet, charliePet].filter (matchesQuery "dog"))
        [Filterable.species "Dog", Filterable.ageRange 0 5]) ∧
    ApplyFilters [maxPet, lunaPet, charliePet]
        [Filterable.ageRange 0 5, Filterable.species "Dog"] =
      ApplyFilters [maxPet, lunaPet, charliePet]
        [Filterable.species "Dog", Filterable.ageRange 0 5] :=
  ⟨by decide, by decide,
   (search_filter_order_independent [maxPet, lunaPet, charliePet] "dog"
      [Filterable.species "Dog", Filterable.ageRange 0 5]
      [Filterable.ageRange 0 5, Filterable.species "Dog"]
      (by decide) (by decide)).1,
   (search_filter_order_independent [maxPet, lunaPet, charliePet] "dog"
      [Filterable.species "Dog", Filterable.ageRange 0 5]
      [Filterable.ageRange 0 5, Filterable.species "Dog"]
      (by decide) (by decide)).2.2⟩

theorem registerHandler_ok (st : AuthState) (email username password code : String)
    (now : Int)
    (he : trimSpace (toLowerString email) ≠ "") (hn : trimSpace username ≠ "") (hp : password ≠ "")
    (hu : alookup st.usersByEmail (trimSpace (toLowerString email)) = none) :
    registerHandler st email username password code now =
      ({ st with
          pendingRegs :=
            aset st.pendingRegs (trimSpace (toLowerString email))
              (⟨trimSpace (toLowerString email), trimSpace username,
                hashPassword password, code, now + 300⟩ : PendingRegistration) },
       RegResult.accepted) := by
  simp [registerHandler, he, hn, hp, hu]

/-- C6: a second `register` for an email that has a PendingRegistration but
no UserAccount does not return AlreadyExists; it overwrites the pending
record with the freshly generated code and a fresh 5-minute expiry, so that
a subsequent `verify` submitting the first code fails with CodeMismatch
while `verify` with the new code creates the account. -/
theorem register_twice_resets_pending (st : AuthState)
    (email username p1 p2 c1 c2 : String) (t0 t1 t2 : Int)
    (huser : alookup st.usersByEmail (trimSpace (toLowerString email)) = none)
    (he : trimSpace (toLowerString email) ≠ "") (hn : trimSpace username ≠ "")
    (hp1 : p1 ≠ "") (hp2 : p2 ≠ "")
    (hcode : c1 ≠ c2) (hc1 : trimSpace c1 = c1) (hc2 : trimSpace c2 = c2)
    (hexp : ¬ t2 > t1 + 300) :
    (registerHandler (registerHandler st email username p1 c1 t0).1
        email username p2 c2 t1).2 = RegResult.accepted ∧
    (registerHandler (registerHandler st email username p1 c1 t0).1
        email username p2 c2 t1).2 ≠ RegResult.alreadyExists ∧
    alookup (registerHandler (registerHandler st email username p1 c1 t0).1
        email username p2 c2 t1).1.pendingRegs (trimSpace (toLowerString email)) =
      some (⟨trimSpace (toLowerString email), trimSpace username, hashPassword p2, c2,
        t1 + 300⟩ : PendingRegistration) ∧
    (verifyEmailHandler (registerHandler (registerHandler st email username p1 c1 t0).1
        email username p2 c2 t1).1 email c1 t2).2 = VerifyResult.codeMismatch ∧
    (verifyEmailHandler (registerHandler (registerHandler st email username p1 c1 t0).1
        email username p2 c2 t1).1 email c2 t2).2 =
      VerifyResult.created (⟨usrIDString (st.users.length + 1),
        trimSpace (toLowerString email), trimSpace username, hashPassword p2, "user",
        false, t2, true⟩ : User) := by
  have h1 : (registerHandler st email username p1 c1 t0).1 =
      { st with
          pendingRegs :=
            aset st.pendingRegs (trimSpace (toLowerString email))
              (⟨trimSpace (toLowerString email), trimSpace username,
                hashPassword p1, c1, t0 + 300⟩ : PendingRegistration) } := by
    rw [registerHandler_ok st email username p1 c1 t0 he hn hp1 huser]
  rw [h1]
  have h2 := registerHandler_ok
    { st with
        pendingRegs :=
          aset st.pendingRegs (trimSpace (toLowerString email))
            (⟨trimSpace (toLowerString email), trimSpace username,
              hashPassword p1, c1, t0 + 300⟩ : PendingRegistration) }
    email username p2 c2 t1 he hn hp2 huser
  rw [h2]
  have hpend := alookup_aset_self
    (aset st.pendingRegs (trimSpace (toLowerString email))
      (⟨trimSpace (toLowerString email), trimSpace username, hashPassword p1, c1,
        t0 + 300⟩ : PendingRegistration))
    (trimSpace (toLowerString email))
    (⟨trimSpace (toLowerString email), trimSpace username, hashPassword p2, c2,
      t1 + 300⟩ : PendingRegistration)
  refine ⟨rfl, by simp, hpend, ?_, ?_⟩
  · have hne : trimSpace c1 ≠ c2 := by rw [hc1]; exact hcode
    simp [verifyEmailHandler, hpend, hexp, hne]
  · simp [verifyEmailHandler, hpend, hexp, hc2]

/-- Witness for C6: a concrete double registration from the empty store
resets the code; verifying the first code mismatches, the second code
creates the account. -/
theorem register_twice_resets_pending_witness :
    alookup emptyAuth.usersByEmail (trimSpace (toLowerString "Dana@Example.com")) = none ∧
    (verifyEmailHandler (registerHandler
        (registerHandler emptyAuth "Dana@Example.com" "dana" "pw1" "111111" 0).1
        "Dana@Example.com" "dana" "pw2" "222222" 10).1
      "Dana@Example.com" "111111" 20).2 = VerifyResult.codeMismatch ∧
    (verifyEmailHandler (registerHandler
        (registerHandler emptyAuth "Dana@Example.com" "dana" "pw1" "111111" 0).1
        "Dana@Example.com" "dana" "pw2" "222222" 10).1
      "Dana@Example.com" "222222" 20).2 =
      VerifyResult.created ⟨usrIDString 1, "dana@example.com", "dana",
        hashPassword "pw2", "user", false, 20, true⟩ :=
  ⟨by decide,
   (register_twice_resets_pending emptyAuth "Dana@Example.com" "dana" "pw1" "pw2"
      "111111" "222222" 0 10 20 (by decide) (by decide) (by decide) (by decide)
      (by decide) (by decide) (by decide) (by decide) (by decide)).2.2.2.1,
   (register_twice_resets_pending emptyAuth "Dana@Example.com" "dana" "pw1" "pw2"
      "111111" "222222" 0 10 20 (by decide) (by decide) (by decide) (by decide)
      (by decide) (by decide) (by decide) (by decide) (by decide)).2.2.2.2⟩

theorem char_toLower_toNat (c : Char) (h1 : 65 ≤ c.toNat) (h2 : c.toNat ≤ 90) :
    (c.toLower).toNat = c.toNat + 32 := by
  unfold Char.toLower
  rw [if_pos ⟨h1, h2⟩]
  have hv : (Char.toNat c + 32).isValidChar := Or.inl (by omega)
  rw [Char.ofNat, dif_pos hv]
  simp [Char.ofNatAux, Char.toNat, UInt32.ofNat', UInt32.toNat, BitVec.toNat_ofNatLt]

theorem char_toLower_ne_of_isUpper (c : Char) (h : c.isUpper = true) :
    c.toLower ≠ c := by
  simp only [Char.isUpper, Bool.and_eq_true, decide_eq_true_eq] at h
  obtain ⟨ha, hb⟩ := h
  have h1 := UInt32.le_toNat_of_le (by decide) ha
  have h2 := UInt32.toNat_le_of_le (by decide) hb
  intro heq
  have hx := char_toLower_toNat c h1 h2
  rw [heq] at hx
  omega

theorem map_toLower_fix {l : List Char} (h : l.map Char.toLower = l) :
    ∀ c ∈ l, Char.toLower c = c := by
  induction l with
  | nil => simp
  | cons a as ih =>
    simp only [List.map_cons, List.cons.injEq] at h
    intro c hc
    rcases List.mem_cons.mp hc with rfl | hmem
    · exact h.1
    · exact ih h.2 c hmem

theorem toLowerString_ne_of_upper (s : String) (c : Char) (hc : c ∈ s.data)
    (hu : c.isUpper = true) : toLowerString s ≠ s := by
  intro heq
  have hdata : s.data.map Char.toLower = s.data := congrArg String.data heq
  exact char_toLower_ne_of_isUpper c hu (map_toLower_fix hdata c hc)

theorem toLowerString_ne_empty (s : String) (c : Char) (hc : c ∈ s.data) :
    toLowerString s ≠ "" := by
  intro heq
  have hdata : s.data.map Char.toLower = [] := congrArg String.data heq
  rw [List.map_eq_nil_iff] at hdata
  rw [hdata] at hc
  exact List.not_mem_nil c hc

/-- C10: registration lowercases the submitted email before storing the
account, but login looks the submitted email up case-sensitively without
normalizing.  For an account created through register/verify from the empty
store with an email containing an uppercase letter, login with the email
exactly as typed returns InvalidCredentials even with the correct password,
while login with the lowercased email and the correct password succeeds. -/
theorem register_lowercases_login_case_sensitive
    (email username password code : String) (t0 t1 t2 t3 : Int) (c : Char)
    (hc : c ∈ email.data) (hu : c.isUpper = true)
    (htrim : trimSpace (toLowerString email) = toLowerString email)
    (hn : trimSpace username ≠ "") (hp : password ≠ "")
    (hcode : trimSpace code = code) (hexp : ¬ t1 > t0 + 300) :
    toLowerString email ≠ email ∧
    (Login (verifyEmailHandler
        (registerHandler emptyAuth email username password code t0).1
        email code t1).1 email password t2).2 =
      Except.error AuthErr.invalidCredentials ∧
    ∃ tk : AuthToken,
      (Login (verifyEmailHandler
          (registerHandler emptyAuth email username password code t0).1
          email code t1).1 (toLowerString email) password t3).2 =
        Except.ok tk := by
  have hne := toLowerString_ne_of_upper email c hc hu
  have hnemp := toLowerString_ne_empty email c hc
  have he : trimSpace (toLowerString email) ≠ "" := by rw [htrim]; exact hnemp
  have hemail : email ≠ "" := by
    intro h
    subst h
    exact List.not_mem_nil c hc
  have h1 := registerHandler_ok emptyAuth email username password code t0 he hn hp rfl
  rw [h1]
  have h2 : (verifyEmailHandler
      { emptyAuth with
          pendingRegs :=
            aset emptyAuth.pendingRegs (trimSpace (toLowerString email))
              (⟨trimSpace (toLowerString email), trimSpace username,
                hashPassword password, code, t0 + 300⟩ : PendingRegistration) }
      email code t1).1 =
      (⟨[⟨usrIDString 1, trimSpace (toLowerString email), trimSpace username,
          hashPassword password, "user", false, t1, true⟩],
        [(trimSpace (toLowerString email),
          ⟨usrIDString 1, trimSpace (toLowerString email), trimSpace username,
           hashPassword password, "user", false, t1, true⟩)],
        [], []⟩ : AuthState) := by
    simp [verifyEmailHandler, alookup, hexp, hcode, emptyAuth, aset,
      adel, usrIDString]
  rw [h2]
  have hne2 : trimSpace (toLowerString email) ≠ email := by
    rw [htrim]; exact hne
  refine ⟨hne, ?_, ?_⟩
  · simp [Login, hemail, hp, alookup, hne2]
  · refine ⟨⟨generateToken (usrIDString 1) t3, usrIDString 1, t3 + 86400, "user",
      false, trimSpace username, trimSpace (toLowerString email)⟩, ?_⟩
    simp [Login, hnemp, hp, alookup, htrim]

/-- Witness for C10: the account registered as "Jane@Example.com" is stored
under "jane@example.com"; login with the email as typed fails with the
correct password, login with the lowercased email succeeds. -/
theorem register_lowercases_login_case_sensitive_witness :
    ('J' ∈ ("Jane@Example.com" : String).data) ∧
    (Login (verifyEmailHandler
        (registerHandler emptyAuth "Jane@Example.com" "jane" "pw" "123456" 0).1
        "Jane@Example.com" "123456" 10).1 "Jane@Example.com" "pw" 20).2 =
      Except.error AuthErr.invalidCredentials ∧
    ∃ tk : AuthToken,
      (Login (verifyEmailHandler
          (registerHandler emptyAuth "Jane@Example.com" "jane" "pw" "123456" 0).1
          "Jane@Example.com" "123456" 10).1
        (toLowerString "Jane@Example.com") "pw" 30).2 = Except.ok tk :=
  ⟨by decide,
   (register_lowercases_login_case_sensitive "Jane@Example.com" "jane" "pw"
      "123456" 0 10 20 30 'J' (by decide) (by decide) (by decide) (by decide)
      (by decide) (by decide) (by decide)).2.1,
   (register_lowercases_login_case_sensitive "Jane@Example.com" "jane" "pw"
      "123456" 0 10 20 30 'J' (by decide) (by decide) (by decide) (by decide)
      (by decide) (by decide) (by decide)).2.2⟩

end PawtnerHope
